import Mathlib

/-!
Verification development for the WhatsBlast batch-dispatch pipeline
(`src/main.py`).  CSV files are modelled as lists of rows, a row being a
list of string fields; the stateful WhatsApp channel is modelled as a
function from a phone number to the observable result of the page
interaction; the buffered results file is modelled as a pair of the
already-persisted rows and the rows still sitting in the process buffer.
-/

namespace WhatsBlast

/-- Canonicalization used throughout `main.py`: the regular-expression
substitution that deletes every non-digit character (`re.sub` with the
non-digit class), keeping exactly the decimal digits in order. -/
def canon (s : String) : String :=
  String.mk (s.data.filter Char.isDigit)

/-- Loop of `read_phone_numbers_from_csv` (main.py lines 68-77): every
non-empty row after the header contributes the canonical form of its
first field, appended in input order.  Empty rows are skipped; nothing
else is dropped and no deduplication takes place. -/
def readPhonesAux : List (List String) → List String → List String
  | [], acc => acc
  | [] :: rest, acc => readPhonesAux rest acc
  | (x :: _) :: rest, acc => readPhonesAux rest (acc ++ [canon x])

/-- `read_phone_numbers_from_csv` (main.py lines 61-81): the first row of
the file is consumed as the header, then the loop runs over the rest. -/
def read_phone_numbers_from_csv (rows : List (List String)) : List String :=
  readPhonesAux rows.tail []

/-- Loop of `read_processed_numbers` (main.py lines 106-117).  A non-empty
row with fewer than two fields makes `row[1]` raise `IndexError`, which the
surrounding `except` catches, so the function returns the set accumulated
so far.  Rows whose second field is the success label contribute the
canonical form of their first field to the set (modelled as a
duplicate-free list, membership being all that is ever used). -/
def readProcessedAux : List (List String) → List String → List String
  | [], acc => acc
  | [] :: rest, acc => readProcessedAux rest acc
  | [_] :: _, acc => acc
  | (x :: y :: _) :: rest, acc =>
      if y = "Sent successfully" then
        readProcessedAux rest (List.insert (canon x) acc)
      else
        readProcessedAux rest acc

/-- `read_processed_numbers` (main.py lines 99-117): skip the header, then
run the loop starting from the empty set. -/
def read_processed_numbers (rows : List (List String)) : List String :=
  readProcessedAux rows.tail []

/-- The pending sequence built in `main` (main.py lines 219-220): the
loaded input numbers minus the already-successful set, order preserved. -/
def pendingNumbers (inputRows ledgerRows : List (List String)) : List String :=
  (read_phone_numbers_from_csv inputRows).filter
    (fun n => decide (n ∉ read_processed_numbers ledgerRows))

/-- Observable behaviour of the WhatsApp page for one phone number during
`send_message` (main.py lines 119-168), i.e. which of the four disjoint
control-flow branches the interaction takes:
* `invalidNumber e` — the alert element appears with text `e` (lines 134-144);
* `noMessageBox` — no alert, but the message box never appears (lines 146-151);
* `sent w` — the message is typed and sent, and `random.choice` on the list
  of waits 1, 2, 3 yields `w` (lines 153-163);
* `exn e` — some awaited call raises an exception rendered as `e`,
  reaching the outer `except` (lines 165-168). -/
inductive ChannelResult where
  | invalidNumber (errorMessage : String)
  | noMessageBox
  | sent (dynWait : Nat)
  | exn (detail : String)
deriving DecidableEq

/-- The row `send_message` writes for a phone number in each branch. -/
def sendRecord (phone_number : String) (r : ChannelResult) : List String :=
  match r with
  | .invalidNumber e => [phone_number, "Failed - Invalid number: " ++ e]
  | .noMessageBox => [phone_number, "Failed"]
  | .sent _ => [phone_number, "Sent successfully"]
  | .exn e => [phone_number, "Failed - " ++ e]

/-- Seconds slept inside `send_message` after the outcome is classified
(that is, not counting the pre-classification waits): the success branch
sleeps the `random.choice` wait before returning (line 160), the exception
branch sleeps 10 seconds (line 168), the two early-return branches sleep
nothing. -/
def sendDelay (r : ChannelResult) : Nat :=
  match r with
  | .invalidNumber _ => 0
  | .noMessageBox => 0
  | .sent w => w
  | .exn _ => 10

/-- Inter-target delay before the next target starts: the post-
classification sleep inside `send_message` plus the one-second pause the
batch loop adds after every call (main.py line 189). -/
def interTargetDelay (r : ChannelResult) : Nat :=
  sendDelay r + 1

/-- The slicing `phone_numbers[i:i+batch_size]` performed by the loop
`for i in range(0, total_numbers, batch_size)` (main.py lines 183-184),
written with explicit fuel so that it computes by structural recursion.
With `batch_size ≥ 1` a fuel of `l.length` is always enough.  (Python
raises `ValueError` for a zero step; a zero batch size is outside the
modelled domain and every statement below assumes `1 ≤ batch_size`.) -/
def toBatchesAux (batch_size : Nat) : Nat → List String → List (List String)
  | 0, _ => []
  | _, [] => []
  | fuel + 1, l => l.take batch_size :: toBatchesAux batch_size fuel (l.drop batch_size)

/-- The batches visited by `send_messages_in_batches`. -/
def toBatches (batch_size : Nat) (l : List String) : List (List String) :=
  toBatchesAux batch_size l.length l

/-- One iteration of the inner loop of `send_messages_in_batches`
(main.py lines 187-189): the record `send_message` writes for this number
together with the inter-target delay that follows it. -/
def processTarget (channel : String → ChannelResult) (phone_number : String) :
    List String × Nat :=
  (sendRecord phone_number (channel phone_number),
   interTargetDelay (channel phone_number))

/-- `send_messages_in_batches` (main.py lines 170-193): the pending list is
sliced into batches and each batch is traversed in order, every number
being handed to `send_message` exactly once, followed by the one-second
pause.  The value is the sequence of (record, inter-target delay) pairs in
execution order. -/
def send_messages_in_batches (channel : String → ChannelResult)
    (phone_numbers : List String) (batch_size : Nat) :
    List (List String × Nat) :=
  ((toBatches batch_size phone_numbers).map
    (fun batch => batch.map (processTarget channel))).flatten

/-- The buffered results file: `main` opens `message_sending_results.csv`
in append mode (line 240) and hands a `csv.writer` over it to the dispatch
loop; rows written through the writer sit in the process file buffer
(records are far smaller than the buffer capacity and nothing ever calls
`flush`), reaching the persisted file only when the `with` block closes
the file at the end of the run. -/
structure BufFile where
  persisted : List (List String)
  buffer : List (List String)
deriving DecidableEq

/-- `writer.writerow(row)` on the buffered file: the row is appended to
the in-process buffer; the persisted content is untouched. -/
def writerow (f : BufFile) (row : List String) : BufFile :=
  { f with buffer := f.buffer ++ [row] }

/-- Closing the file at the end of the `with` block flushes the buffer to
the persisted file. -/
def closeFile (f : BufFile) : BufFile :=
  { persisted := f.persisted ++ f.buffer, buffer := [] }

/-- The writes one batch performs on the results file: the inner loop of
`send_messages_in_batches` calls `send_message`, which ends each branch
with exactly one `writer.writerow` (main.py lines 141, 150, 162, 167). -/
def runBatchFile (channel : String → ChannelResult) (f : BufFile)
    (batch : List String) : BufFile :=
  batch.foldl (fun g n => writerow g (sendRecord n (channel n))) f

/-- The results file as transformed by a whole `send_messages_in_batches`
run, batch by batch. -/
def send_messages_in_batches_file (channel : String → ChannelResult)
    (phone_numbers : List String) (batch_size : Nat) (f : BufFile) : BufFile :=
  (toBatches batch_size phone_numbers).foldl (runBatchFile channel) f

/-- The external conditions one invocation of the program runs under:
whether each file open succeeds, the rows the files hold, whether the
results file already exists and whether creating it would succeed, whether
the browser session (QR-scan handshake) can be established, the page
behaviour per number, and the batch-size argument. -/
structure Env where
  inputReadable : Bool
  inputRows : List (List String)
  ledgerReadable : Bool
  ledgerRows : List (List String)
  ledgerExists : Bool
  initWriteOk : Bool
  sessionOk : Bool
  channel : String → ChannelResult
  batch_size : Nat

/-- What one invocation of the program observably produces: the process
exit code, the numbers actually handed to `send_message`, the
(record, delay) trace, and the console diagnostic printed on an early
exit, if any. -/
structure MainResult where
  exitCode : Nat
  dispatched : List String
  records : List (List String × Nat)
  diagnostic : Option String

/-- The dispatch phase of `main` (lines 239-243): entering
`get_browser_and_page` raises when the session cannot be established
(utils.py raises out of `launch`/`waitForSelector`, re-raised at main.py
line 32); otherwise the batch loop runs to completion, per-target
exceptions having been absorbed inside `send_message`. -/
def dispatchPhase (env : Env) (pending : List String) :
    Except String (List (List String × Nat)) :=
  if env.sessionOk then
    Except.ok (send_messages_in_batches env.channel pending env.batch_size)
  else
    Except.error ("session unobtainable")

/-- `main` plus the `__main__` guard (main.py lines 195-257).  Every file
read catches its own exceptions (returning an empty list or set), the
dispatch phase is wrapped in `try/except Exception` at lines 239-246, and
`asyncio.run(main())` is itself wrapped in `try/except Exception` at
lines 252-257, so control always reaches the end of the script and the
interpreter exits with code 0 on every modelled path. -/
def mainRun (env : Env) : MainResult :=
  let phone_numbers :=
    if env.inputReadable then read_phone_numbers_from_csv env.inputRows else []
  if phone_numbers.isEmpty then
    { exitCode := 0, dispatched := [], records := [],
      diagnostic := some ("No phone numbers to process. Exiting.") }
  else
    let processed :=
      if env.ledgerReadable then read_processed_numbers env.ledgerRows else []
    let pending := phone_numbers.filter (fun n => decide (n ∉ processed))
    if pending.isEmpty then
      { exitCode := 0, dispatched := [], records := [],
        diagnostic := some ("All phone numbers have been processed successfully. Exiting.") }
    else if !env.ledgerExists && !env.initWriteOk then
      { exitCode := 0, dispatched := [], records := [],
        diagnostic := some ("Failed to create the results file") }
    else
      match dispatchPhase env pending with
      | Except.ok trace =>
          { exitCode := 0, dispatched := pending, records := trace,
            diagnostic := none }
      | Except.error _ =>
          { exitCode := 0, dispatched := [], records := [],
            diagnostic := some ("An error occurred") }

/-- The loader appends the canonical first field of every non-empty row. -/
theorem readPhonesAux_eq (rows : List (List String)) (acc : List String) :
    readPhonesAux rows acc
      = acc ++ rows.filterMap (fun row => row.head?.map canon) := by
  induction rows generalizing acc with
  | nil => simp [readPhonesAux]
  | cons r rest ih =>
      cases r with
      | nil => simp [readPhonesAux, ih]
      | cons x xs => simp [readPhonesAux, ih]

/-- Accumulated members survive the rest of the processed-numbers loop,
whatever the remaining rows look like. -/
theorem mem_readProcessedAux_of_mem (rows : List (List String))
    (acc : List String) (a : String) (h : a ∈ acc) :
    a ∈ readProcessedAux rows acc := by
  induction rows generalizing acc with
  | nil => simpa [readProcessedAux] using h
  | cons r rest ih =>
      match r with
      | [] => simpa [readProcessedAux] using ih acc h
      | [x] => simpa [readProcessedAux] using h
      | x :: y :: t =>
          by_cases hy : y = "Sent successfully"
          · simp only [readProcessedAux, if_pos hy]
            exact ih _ (by simp [List.mem_insert_iff, h])
          · simpa only [readProcessedAux, if_neg hy] using ih acc h

/-- Completeness of the done-set loop on well-formed rows: when no row
aborts the scan, every success row lands in the set. -/
theorem mem_readProcessedAux_of_success (rows : List (List String))
    (acc : List String) (x y : String) (t : List String)
    (hwf : ∀ row ∈ rows, row = [] ∨ 2 ≤ row.length)
    (hrow : (x :: y :: t) ∈ rows) (hy : y = "Sent successfully") :
    canon x ∈ readProcessedAux rows acc := by
  induction rows generalizing acc with
  | nil => cases hrow
  | cons r rest ih =>
      rcases List.mem_cons.mp hrow with hr | hr
      · subst hr
        simp only [readProcessedAux, if_pos hy]
        exact mem_readProcessedAux_of_mem rest _ _ (by simp [List.mem_insert_iff])
      · have hwfr := hwf r (List.mem_cons_self r rest)
        have hwfrest : ∀ row ∈ rest, row = [] ∨ 2 ≤ row.length :=
          fun row hm => hwf row (List.mem_cons_of_mem r hm)
        match r, hwfr with
        | [], _ => simpa [readProcessedAux] using ih acc hwfrest hr
        | x' :: y' :: t', _ =>
            by_cases hy' : y' = "Sent successfully"
            · simpa only [readProcessedAux, if_pos hy'] using ih _ hwfrest hr
            · simpa only [readProcessedAux, if_neg hy'] using ih acc hwfrest hr
        | [x'], hc => simp at hc

/-- Soundness of the done-set loop: everything in the result was either
already accumulated or comes from a success row, with no well-formedness
assumption needed. -/
theorem mem_readProcessedAux_elim (rows : List (List String))
    (acc : List String) (a : String) (h : a ∈ readProcessedAux rows acc) :
    a ∈ acc ∨ ∃ x y t, (x :: y :: t) ∈ rows ∧ y = "Sent successfully" ∧ canon x = a := by
  induction rows generalizing acc with
  | nil => exact Or.inl (by simpa [readProcessedAux] using h)
  | cons r rest ih =>
      match r with
      | [] =>
          rcases ih acc (by simpa [readProcessedAux] using h) with h' | ⟨x, y, t, hm, hy, hc⟩
          · exact Or.inl h'
          · exact Or.inr ⟨x, y, t, List.mem_cons_of_mem _ hm, hy, hc⟩
      | [x'] => exact Or.inl (by simpa [readProcessedAux] using h)
      | x' :: y' :: t' =>
          by_cases hy' : y' = "Sent successfully"
          · rw [readProcessedAux, if_pos hy'] at h
            rcases ih _ h with h' | ⟨x, y, t, hm, hy, hc⟩
            · rcases List.mem_insert_iff.mp h' with h'' | h''
              · exact Or.inr ⟨x', y', t', List.mem_cons_self _ _, hy', h''.symm⟩
              · exact Or.inl h''
            · exact Or.inr ⟨x, y, t, List.mem_cons_of_mem _ hm, hy, hc⟩
          · rw [readProcessedAux, if_neg hy'] at h
            rcases ih acc h with h' | ⟨x, y, t, hm, hy, hc⟩
            · exact Or.inl h'
            · exact Or.inr ⟨x, y, t, List.mem_cons_of_mem _ hm, hy, hc⟩

/-- A one-field row aborts the scan exactly where it stands: rows after it
contribute nothing, provided the rows before it are well-formed. -/
theorem readProcessedAux_append_malformed (pre post : List (List String))
    (b : String) (acc : List String)
    (hwf : ∀ row ∈ pre, row = [] ∨ 2 ≤ row.length) :
    readProcessedAux (pre ++ [b] :: post) acc = readProcessedAux pre acc := by
  induction pre generalizing acc with
  | nil => simp [readProcessedAux]
  | cons r rest ih =>
      have hwfr := hwf r (List.mem_cons_self r rest)
      have hwfrest : ∀ row ∈ rest, row = [] ∨ 2 ≤ row.length :=
        fun row hm => hwf row (List.mem_cons_of_mem r hm)
      match r, hwfr with
      | [], _ => simpa [readProcessedAux] using ih acc hwfrest
      | x' :: y' :: t', _ =>
          by_cases hy' : y' = "Sent successfully"
          · simpa only [List.cons_append, readProcessedAux, if_pos hy'] using
              ih _ hwfrest
          · simpa only [List.cons_append, readProcessedAux, if_neg hy'] using
              ih acc hwfrest
      | [x'], hc => simp at hc

/-- With a positive batch size and enough fuel, flattening the slices
gives back the original list. -/
theorem flatten_toBatchesAux (batch_size : Nat) (hbs : 1 ≤ batch_size) :
    ∀ (fuel : Nat) (l : List String), l.length ≤ fuel →
      (toBatchesAux batch_size fuel l).flatten = l := by
  intro fuel
  induction fuel with
  | zero =>
      intro l hl
      have : l = [] := List.eq_nil_of_length_eq_zero (Nat.le_zero.mp hl)
      simp [this, toBatchesAux]
  | succ n ih =>
      intro l hl
      cases l with
      | nil => simp [toBatchesAux]
      | cons x xs =>
          have hdrop : ((x :: xs).drop batch_size).length ≤ n := by
            simp only [List.length_drop]
            omega
          simp only [toBatchesAux, List.flatten_cons, ih _ hdrop]
          exact List.take_append_drop batch_size (x :: xs)

/-- Batches are a pure regrouping: their concatenation is the pending list. -/
theorem flatten_toBatches (batch_size : Nat) (hbs : 1 ≤ batch_size)
    (l : List String) : (toBatches batch_size l).flatten = l :=
  flatten_toBatchesAux batch_size hbs l.length l (Nat.le_refl _)

/-- The whole batched dispatch is the per-target map over the pending
list: one `send_message` call per number, in order. -/
theorem send_messages_in_batches_eq_map (channel : String → ChannelResult)
    (phone_numbers : List String) (batch_size : Nat) (hbs : 1 ≤ batch_size) :
    send_messages_in_batches channel phone_numbers batch_size
      = phone_numbers.map (processTarget channel) := by
  unfold send_messages_in_batches
  rw [← List.map_flatten, flatten_toBatches batch_size hbs]

/-- Folding the per-batch writes over any batch list appends exactly the
in-order records to the buffer and leaves the persisted part alone. -/
theorem foldl_runBatchFile (channel : String → ChannelResult)
    (batches : List (List String)) (f : BufFile) :
    batches.foldl (runBatchFile channel) f
      = BufFile.mk f.persisted
          (f.buffer ++ batches.flatten.map (fun n => sendRecord n (channel n))) := by
  induction batches generalizing f with
  | nil => simp
  | cons batch rest ih =>
      have hbatch : ∀ (g : BufFile),
          runBatchFile channel g batch
            = BufFile.mk g.persisted
                (g.buffer ++ batch.map (fun n => sendRecord n (channel n))) := by
        intro g
        induction batch generalizing g with
        | nil => simp [runBatchFile]
        | cons n ns ihn =>
            simp [runBatchFile] at ihn ⊢
            rw [ihn]
            simp [writerow]
      simp only [List.foldl_cons, ih, hbatch, List.flatten_cons, List.map_append,
        List.append_assoc]

/-- C8: canonicalization is the digits-only projection — the characters of
`canon x` are exactly the decimal digits of `x`, in order — it is
idempotent, and the spec's concrete example evaluates as stated. -/
theorem C8_canon_digits_only_idempotent (x : String) :
    (canon x).data.Sublist x.data ∧
    (∀ c ∈ (canon x).data, c.isDigit = true) ∧
    (∀ c ∈ x.data, c.isDigit = true → c ∈ (canon x).data) ∧
    canon (canon x) = canon x ∧
    canon ("+1 (234) 567-8900") = "12345678900" := by
  refine ⟨?_, ?_, ?_, ?_, by decide⟩
  · exact List.filter_sublist x.data
  · intro c hc
    exact (List.mem_filter.mp (by simpa [canon] using hc)).2
  · intro c hc hd
    simp [canon, List.mem_filter, hc, hd]
  · show String.mk ((x.data.filter Char.isDigit).filter Char.isDigit)
        = String.mk (x.data.filter Char.isDigit)
    rw [List.filter_filter]
    simp

/-- C2 counterexample: loading the file whose data rows are "1234",
"+1234", "123-4" yields three copies of "1234", not the claimed
one-element sequence — `read_phone_numbers_from_csv` never deduplicates. -/
theorem C2_dedup_cex :
    read_phone_numbers_from_csv [["Phone Number"], ["1234"], ["+1234"], ["123-4"]]
      = ["1234", "1234", "1234"] ∧
    read_phone_numbers_from_csv [["Phone Number"], ["1234"], ["+1234"], ["123-4"]]
      ≠ ["1234"] := by
  decide

/-- C2 (amended): loading produces the canonical (digits-only) form of the
first field of every non-empty data row, in first-seen order, but performs
no deduplication and does not drop entries whose canonical form is the
empty string — later duplicates and empty canonical forms are kept. -/
theorem C2_load_keeps_duplicates_and_empties (rows : List (List String)) :
    read_phone_numbers_from_csv rows
      = rows.tail.filterMap (fun row => row.head?.map canon) :=
  readPhonesAux_eq rows.tail []

/-- C1: resume idempotence — if the ledger consists of well-formed rows
and contains a record for target `t` with status "Sent successfully", then
`t` is filtered out of the pending sequence before dispatch begins and
never appears in any batch handed to `send_message`. -/
theorem C1_resume_idempotence (inputRows ledgerRows : List (List String))
    (t x y : String) (tl : List String) (batch_size : Nat)
    (hbs : 1 ≤ batch_size)
    (hwf : ∀ row ∈ ledgerRows.tail, row = [] ∨ 2 ≤ row.length)
    (hrow : (x :: y :: tl) ∈ ledgerRows.tail)
    (hy : y = "Sent successfully")
    (hx : canon x = t) :
    t ∉ pendingNumbers inputRows ledgerRows ∧
    t ∉ (toBatches batch_size (pendingNumbers inputRows ledgerRows)).flatten := by
  have hdone : t ∈ read_processed_numbers ledgerRows := by
    rw [← hx]
    exact mem_readProcessedAux_of_success _ _ _ _ _ hwf hrow hy
  have hpend : t ∉ pendingNumbers inputRows ledgerRows := by
    intro hmem
    rcases List.mem_filter.mp hmem with ⟨-, hp⟩
    exact (of_decide_eq_true hp) hdone
  refine ⟨hpend, ?_⟩
  rw [flatten_toBatches batch_size hbs]
  exact hpend

/-- Witness for C1 at a concrete input list, ledger and batch size. -/
theorem C1_resume_idempotence_witness :
    (1 ≤ 2 ∧
      (∀ row ∈ ([["Phone Number", "Status"],
          ["111", "Sent successfully"]] : List (List String)).tail,
        row = [] ∨ 2 ≤ row.length) ∧
      (["111"] ++ ["Sent successfully"] ++ [])
        ∈ ([["Phone Number", "Status"],
            ["111", "Sent successfully"]] : List (List String)).tail ∧
      canon ("111") = "111") ∧
    ("111" ∉ pendingNumbers [["Phone Number"], ["+111"], ["222"]]
        [["Phone Number", "Status"], ["111", "Sent successfully"]] ∧
      "111" ∉ (toBatches 2 (pendingNumbers [["Phone Number"], ["+111"], ["222"]]
        [["Phone Number", "Status"], ["111", "Sent successfully"]])).flatten) :=
  ⟨⟨by decide, by decide, by decide, by decide⟩,
    C1_resume_idempotence [["Phone Number"], ["+111"], ["222"]]
      [["Phone Number", "Status"], ["111", "Sent successfully"]]
      ("111") ("111") ("Sent successfully") [] 2
      (by decide) (by decide) (by decide) (by decide) (by decide)⟩

/-- C3 counterexample: the Skipped (invalid-number) record for target
"222" preserves the reason verbatim, yet the target is not kept out of
the pending sequence of a later run over the same ledger: it is
re-dispatched, because only "Sent successfully" rows enter the done set. -/
theorem C3_skipped_terminal_cex :
    sendRecord ("222") (ChannelResult.invalidNumber ("invalid"))
      = ["222", "Failed - Invalid number: invalid"] ∧
    pendingNumbers [["Phone Number"], ["222"]]
        [["Phone Number", "Status"], ["222", "Failed - Invalid number: invalid"]]
      = ["222"] := by
  decide

/-- C3 (amended): for a definitively-invalid target a record is appended
with the rejection reason preserved verbatim, but the recorded state does
not keep the target out of the pending sequence: any input target that has
no "Sent successfully" ledger row — in particular one whose rows all carry
the invalid-number status — is re-attempted on the next run. -/
theorem C3_skipped_recorded_but_reattempted
    (inputRows ledgerRows : List (List String)) (t n e : String)
    (hnone : ∀ row ∈ ledgerRows.tail,
      canon (row.headD ("")) = t → row.getD 1 ("") ≠ "Sent successfully")
    (hin : t ∈ read_phone_numbers_from_csv inputRows) :
    sendRecord n (ChannelResult.invalidNumber e)
      = [n, "Failed - Invalid number: " ++ e] ∧
    t ∈ pendingNumbers inputRows ledgerRows := by
  refine ⟨rfl, ?_⟩
  have hnotdone : t ∉ read_processed_numbers ledgerRows := by
    intro hmem
    rcases mem_readProcessedAux_elim _ _ _ hmem with h | ⟨x, y, tl, hm, hy, hc⟩
    · simp at h
    · exact hnone (x :: y :: tl) hm (by simpa using hc) (by simpa using hy)
  exact List.mem_filter.mpr ⟨hin, decide_eq_true hnotdone⟩

/-- Witness for C3 (amended) at a concrete ledger holding an
invalid-number record for the target. -/
theorem C3_skipped_recorded_but_reattempted_witness :
    ((∀ row ∈ ([["Phone Number", "Status"],
          ["222", "Failed - Invalid number: invalid"]] : List (List String)).tail,
        canon (row.headD ("")) = "222" → row.getD 1 ("") ≠ "Sent successfully") ∧
      "222" ∈ read_phone_numbers_from_csv [["Phone Number"], ["222"]]) ∧
    (sendRecord ("222") (ChannelResult.invalidNumber ("oops"))
        = ["222", "Failed - Invalid number: oops"] ∧
      "222" ∈ pendingNumbers [["Phone Number"], ["222"]]
        [["Phone Number", "Status"], ["222", "Failed - Invalid number: invalid"]]) :=
  ⟨⟨by decide, by decide⟩,
    C3_skipped_recorded_but_reattempted [["Phone Number"], ["222"]]
      [["Phone Number", "Status"], ["222", "Failed - Invalid number: invalid"]]
      ("222") ("222") ("oops") (by decide) (by decide)⟩

/-- C4 counterexample: a target classified as Failed because the message
box never appeared gets the base one-second inter-target delay, which is
not strictly longer than the delay after a Success (at least two
seconds) — refuting the claim for this Failed classification. -/
theorem C4_pacing_cex :
    sendRecord ("555") ChannelResult.noMessageBox = ["555", "Failed"] ∧
    sendRecord ("666") (ChannelResult.sent 1) = ["666", "Sent successfully"] ∧
    ¬ interTargetDelay ChannelResult.noMessageBox
        > interTargetDelay (ChannelResult.sent 1) := by
  decide

/-- C4 (amended): only a failure raised as an exception during the
operation is followed by a strictly longer inter-target delay (eleven
seconds) than any Success (at most four seconds, the random wait being
drawn from 1, 2, 3); the Failed classifications from the invalid-number
alert and from the missing message box receive only the base one-second
delay. -/
theorem C4_pacing_exception_failures (e e' : String) (w : Nat) (hw : w ≤ 3) :
    interTargetDelay (ChannelResult.exn e) > interTargetDelay (ChannelResult.sent w) ∧
    interTargetDelay ChannelResult.noMessageBox = 1 ∧
    interTargetDelay (ChannelResult.invalidNumber e') = 1 := by
  refine ⟨?_, rfl, rfl⟩
  simp only [interTargetDelay, sendDelay]
  omega

/-- Witness for C4 (amended) at a concrete exception text and random wait. -/
theorem C4_pacing_exception_failures_witness :
    2 ≤ 3 ∧
    (interTargetDelay (ChannelResult.exn ("boom"))
        > interTargetDelay (ChannelResult.sent 2) ∧
      interTargetDelay ChannelResult.noMessageBox = 1 ∧
      interTargetDelay (ChannelResult.invalidNumber ("bad")) = 1) :=
  ⟨by decide, C4_pacing_exception_failures ("boom") ("bad") 2 (by decide)⟩

/-- C5 counterexample: after the per-target operation for "111" has
returned (indeed after the whole dispatch loop), the success record sits
in the process buffer and has not reached the persisted results file —
refuting "flushed before the per-target operation returns". -/
theorem C5_flush_cex :
    (send_messages_in_batches_file (fun _ => ChannelResult.sent 1) ["111"] 1
        (BufFile.mk [["Phone Number", "Status"]] [])).persisted
      = [["Phone Number", "Status"]] ∧
    ["111", "Sent successfully"]
        ∉ (send_messages_in_batches_file (fun _ => ChannelResult.sent 1) ["111"] 1
            (BufFile.mk [["Phone Number", "Status"]] [])).persisted ∧
    ["111", "Sent successfully"]
        ∈ (send_messages_in_batches_file (fun _ => ChannelResult.sent 1) ["111"] 1
            (BufFile.mk [["Phone Number", "Status"]] [])).buffer := by
  decide

/-- C5 (amended): each per-target record is appended to the output stream
before the next target starts and prior persisted records are never
rewritten in place, but records are buffered rather than flushed per
target: they reach the persisted file only when the results file is closed
at the end of the run, at which point the file holds the prior content
followed by every record of the run in order. -/
theorem C5_buffered_append (channel : String → ChannelResult)
    (phone_numbers : List String) (batch_size : Nat) (f : BufFile)
    (hbs : 1 ≤ batch_size) :
    (send_messages_in_batches_file channel phone_numbers batch_size f).persisted
      = f.persisted ∧
    (send_messages_in_batches_file channel phone_numbers batch_size f).buffer
      = f.buffer ++ phone_numbers.map (fun n => sendRecord n (channel n)) ∧
    closeFile (send_messages_in_batches_file channel phone_numbers batch_size f)
      = BufFile.mk
          (f.persisted ++ f.buffer
            ++ phone_numbers.map (fun n => sendRecord n (channel n))) [] := by
  have h := foldl_runBatchFile channel (toBatches batch_size phone_numbers) f
  rw [flatten_toBatches batch_size hbs] at h
  unfold send_messages_in_batches_file
  rw [h]
  simp [closeFile]

/-- Witness for C5 (amended) at a concrete run of two targets. -/
theorem C5_buffered_append_witness :
    1 ≤ 2 ∧
    ((send_messages_in_batches_file (fun _ => ChannelResult.sent 1) ["111", "222"] 2
        (BufFile.mk [["Phone Number", "Status"]] [])).persisted
      = [["Phone Number", "Status"]] ∧
    (send_messages_in_batches_file (fun _ => ChannelResult.sent 1) ["111", "222"] 2
        (BufFile.mk [["Phone Number", "Status"]] [])).buffer
      = [] ++ ["111", "222"].map
          (fun n => sendRecord n ((fun _ => ChannelResult.sent 1) n)) ∧
    closeFile (send_messages_in_batches_file (fun _ => ChannelResult.sent 1)
        ["111", "222"] 2 (BufFile.mk [["Phone Number", "Status"]] []))
      = BufFile.mk ([["Phone Number", "Status"]] ++ []
          ++ ["111", "222"].map
            (fun n => sendRecord n ((fun _ => ChannelResult.sent 1) n))) []) :=
  ⟨by decide,
    C5_buffered_append (fun _ => ChannelResult.sent 1) ["111", "222"] 2
      (BufFile.mk [["Phone Number", "Status"]] []) (by decide)⟩

/-- C6: per-target error containment — whatever the channel does for each
number, including raising an exception (the `exn` branch, converted into a
Failed record carrying the diagnostic detail), the batched dispatch
produces exactly one record per pending target, in order, with no early
termination of the run. -/
theorem C6_per_target_containment (channel : String → ChannelResult)
    (phone_numbers : List String) (batch_size : Nat) (n e : String)
    (hbs : 1 ≤ batch_size) :
    (send_messages_in_batches channel phone_numbers batch_size).map Prod.fst
      = phone_numbers.map (fun m => sendRecord m (channel m)) ∧
    sendRecord n (ChannelResult.exn e) = [n, "Failed - " ++ e] := by
  refine ⟨?_, rfl⟩
  rw [send_messages_in_batches_eq_map channel phone_numbers batch_size hbs]
  simp [processTarget]

/-- Witness for C6 at a concrete pending list in which the middle target
raises an exception. -/
theorem C6_per_target_containment_witness :
    1 ≤ 2 ∧
    ((send_messages_in_batches
        (fun m => if m = "222" then ChannelResult.exn ("boom")
                  else ChannelResult.sent 1)
        ["111", "222", "333"] 2).map Prod.fst
      = ["111", "222", "333"].map
          (fun m => sendRecord m
            (if m = "222" then ChannelResult.exn ("boom")
             else ChannelResult.sent 1)) ∧
    sendRecord ("222") (ChannelResult.exn ("boom"))
      = ["222", "Failed - boom"]) :=
  ⟨by decide,
    C6_per_target_containment
      (fun m => if m = "222" then ChannelResult.exn ("boom")
                else ChannelResult.sent 1)
      ["111", "222", "333"] 2 ("222") ("boom") (by decide)⟩

/-- C9: batch-size irrelevance — for any positive batch size, the batched
dispatch performs the same per-target operations in the same order with
the same records and the same inter-target pacing as dispatch with batch
size one; batch boundaries only group the log output. -/
theorem C9_batch_size_irrelevance (channel : String → ChannelResult)
    (phone_numbers : List String) (batch_size : Nat) (hbs : 1 ≤ batch_size) :
    send_messages_in_batches channel phone_numbers batch_size
      = send_messages_in_batches channel phone_numbers 1 := by
  rw [send_messages_in_batches_eq_map channel phone_numbers batch_size hbs,
    send_messages_in_batches_eq_map channel phone_numbers 1 (Nat.le_refl 1)]

/-- Witness for C9 at batch size three over four targets. -/
theorem C9_batch_size_irrelevance_witness :
    1 ≤ 3 ∧
    send_messages_in_batches (fun _ => ChannelResult.noMessageBox)
        ["1", "2", "3", "4"] 3
      = send_messages_in_batches (fun _ => ChannelResult.noMessageBox)
        ["1", "2", "3", "4"] 1 :=
  ⟨by decide,
    C9_batch_size_irrelevance (fun _ => ChannelResult.noMessageBox)
      ["1", "2", "3", "4"] 3 (by decide)⟩

/-- C7 counterexample: with a readable input list but an unobtainable
channel session — an unrecoverable startup failure — the process prints a
diagnostic yet still exits with code 0, not non-zero as claimed: every
exception is caught by the handlers at main.py lines 244-246 and 252-257. -/
theorem C7_exit_cex :
    (mainRun (Env.mk true [["Phone Number"], ["111"]] false [] false true false
        (fun _ => ChannelResult.noMessageBox) 5)).exitCode = 0 ∧
    (mainRun (Env.mk true [["Phone Number"], ["111"]] false [] false true false
        (fun _ => ChannelResult.noMessageBox) 5)).diagnostic
      = some ("An error occurred") := by
  decide

/-- C7 (amended): the process exits with code zero on every modelled path —
normal completion, the nothing-left-to-do case, failure to create the
results file, and unrecoverable startup failure (unreadable input or
channel session unobtainable, which print a diagnostic but still exit
zero); per-target failures never change the exit code. -/
theorem C7_exit_always_zero (env : Env) : (mainRun env).exitCode = 0 := by
  simp only [mainRun]
  repeat' split
  all_goals rfl

/-- C10: a non-empty ledger row with fewer than two fields silently
truncates the done-set scan — the function returns exactly the
successfully-sent targets read before that row, as if the ledger ended
there — and any Success target recorded after the malformed row is
re-dispatched on resume whenever it is in the input list. -/
theorem C10_malformed_row_truncates
    (header : List String) (pre post : List (List String)) (b : String)
    (inputRows : List (List String)) (t : String)
    (hwf : ∀ row ∈ pre, row = [] ∨ 2 ≤ row.length)
    (hin : t ∈ read_phone_numbers_from_csv inputRows)
    (hnot : t ∉ read_processed_numbers (header :: pre)) :
    read_processed_numbers (header :: (pre ++ [b] :: post))
      = read_processed_numbers (header :: pre) ∧
    t ∈ pendingNumbers inputRows (header :: (pre ++ [b] :: post)) := by
  have heq : read_processed_numbers (header :: (pre ++ [b] :: post))
      = read_processed_numbers (header :: pre) := by
    show readProcessedAux (pre ++ [b] :: post) [] = readProcessedAux pre []
    exact readProcessedAux_append_malformed pre post b [] hwf
  refine ⟨heq, ?_⟩
  refine List.mem_filter.mpr ⟨hin, decide_eq_true ?_⟩
  show t ∉ read_processed_numbers (header :: (pre ++ [b] :: post))
  rw [heq]
  exact hnot

/-- Witness for C10: a ledger whose malformed third row hides the later
Success record for "333", which is therefore pending again. -/
theorem C10_malformed_row_truncates_witness :
    ((∀ row ∈ ([["111", "Sent successfully"]] : List (List String)),
        row = [] ∨ 2 ≤ row.length) ∧
      "333" ∈ read_phone_numbers_from_csv [["Phone Number"], ["333"]] ∧
      "333" ∉ read_processed_numbers
        [["Phone Number", "Status"], ["111", "Sent successfully"]]) ∧
    (read_processed_numbers ([["Phone Number", "Status"]]
        ++ ([["111", "Sent successfully"]] ++ [["oops"]]
          ++ [["333", "Sent successfully"]]))
      = read_processed_numbers
          [["Phone Number", "Status"], ["111", "Sent successfully"]] ∧
    "333" ∈ pendingNumbers [["Phone Number"], ["333"]]
        (["Phone Number", "Status"]
          :: ([["111", "Sent successfully"]] ++ ["oops"]
            :: [["333", "Sent successfully"]]))) :=
  ⟨⟨by decide, by decide, by decide⟩,
    C10_malformed_row_truncates (["Phone Number", "Status"])
      [["111", "Sent successfully"]] [["333", "Sent successfully"]] ("oops")
      [["Phone Number"], ["333"]] ("333")
      (by decide) (by decide) (by decide)⟩

end WhatsBlast
